import Mathlib

/-!
Verification of the geometric and stochastic core of mini_gland_00.py:
the fixed duct tables, the duct wall radius selection of create_duct, and
the rejection sampling cell seeding of create_seg_cells / create_cells.

Real numbers replace Python floats. The stream of random.uniform draws is
modelled as a function u : Nat -> Real whose values lie in [0, 1], and
random.uniform(a, b) with draw t is a + (b - a) * t; each call to
random.uniform consumes one stream position.
-/

namespace MiniGland

noncomputable section

/-- CellType: the three keys of the cell_types dictionary. -/
inductive CellType
  | acinar
  | intercalated
  | striated
  deriving DecidableEq

/-- Vec3: a 3D vector (mathutils.Vector). -/
structure Vec3 where
  x : ℝ
  y : ℝ
  z : ℝ

/-- Componentwise vector difference (mathutils Vector subtraction). -/
def Vec3.sub (a b : Vec3) : Vec3 := ⟨a.x - b.x, a.y - b.y, a.z - b.z⟩

/-- Euclidean length of a vector (mathutils .length). -/
def Vec3.length (v : Vec3) : ℝ := Real.sqrt (v.x ^ 2 + v.y ^ 2 + v.z ^ 2)

/-- Duct segment end-point structure (class cPts): position and radius. -/
structure cPts where
  position : Vec3
  radius : ℝ

/-- Duct segment structure (class cDseg): endpoint indices and cell type. -/
structure cDseg where
  idx_out : ℕ
  idx_in : ℕ
  ctype : CellType

/-- Duct segment end-points table PTS: position, radius. -/
def PTS : List cPts :=
  [⟨⟨0, 0, 0⟩, 4⟩,
   ⟨⟨0, 0, 10⟩, 3.7⟩,
   ⟨⟨0, 0, 20⟩, 1.5⟩,
   ⟨⟨0, 0, 40⟩, 1.5⟩,
   ⟨⟨0, 0, 45⟩, 0.7⟩,
   ⟨⟨0, 0, 52⟩, 0.05⟩]

/-- Duct segment connectivity table DSEG: final out segment listed first,
upstream (high to low radius) ordering. -/
def DSEG : List cDseg :=
  [⟨0, 1, CellType.striated⟩,
   ⟨1, 2, CellType.striated⟩,
   ⟨2, 3, CellType.intercalated⟩,
   ⟨3, 4, CellType.intercalated⟩,
   ⟨4, 5, CellType.acinar⟩]

/-- Cell seed radius C_RADIUS. -/
def C_RADIUS : ℝ := 1

/-- Cell seed radial offset from the inner duct wall, C_OFFSET. -/
def C_OFFSET : ℝ := 1.5 * C_RADIUS

/-- Radius of acinii, A_RADIUS. -/
def A_RADIUS : ℝ := 8

/-- Small numerical offset EPSILON. -/
def EPSILON : ℝ := 0.005

/-- Indexing into PTS (Python PTS[i]; every index used is in range, see the
table consistency theorem). -/
def ptsAt (i : ℕ) : cPts := PTS.getD i ⟨⟨0, 0, 0⟩, 0⟩

/-- Predicate form of too_close(p, dist): some already accepted center is
nearer to p than dist. -/
def too_close (centers : List Vec3) (p : Vec3) (dist : ℝ) : Prop :=
  ∃ c ∈ centers, (p.sub c).length < dist

/-- Acceptance guard of create_seg_cells:
len(cell_centers)==0 or not too_close(p, d). -/
def accept_ok (centers : List Vec3) (p : Vec3) (d : ℝ) : Prop :=
  centers = [] ∨ ¬ too_close centers p d

/-- Type specific minimum separation: the acinar branch tests
too_close(p, 2.8 * C_RADIUS), the duct branch too_close(p, 2.5 * C_RADIUS). -/
def minDist (t : CellType) : ℝ :=
  if t = CellType.acinar then 2.8 * C_RADIUS else 2.5 * C_RADIUS

/-- Model of random.uniform(a, b) for the PRNG draw t in [0, 1]. -/
def uniform (a b t : ℝ) : ℝ := a + (b - a) * t

open Classical in
/-- Inner radius r2 selected in create_duct for the joint sphere and the
connecting cone of a segment. -/
def duct_r2 (offset : ℝ) (s : cDseg) : ℝ :=
  if ¬ offset = 0 ∧ s.ctype = CellType.acinar then A_RADIUS
  else (ptsAt s.idx_in).radius + offset

open Classical in
/-- Scale applied in create_duct to the joint sphere of a segment. -/
def joint_scale (offset : ℝ) (s : cDseg) : Vec3 :=
  if ¬ offset = 0 ∧ s.ctype = CellType.acinar then ⟨1, 1, 1.5⟩ else ⟨1, 1, 1⟩

/-- Radius of the joint ico sphere placed at the inner endpoint. -/
def joint_sphere_radius (offset : ℝ) (s : cDseg) : ℝ :=
  (1 + EPSILON) * duct_r2 offset s

/-- Height z1 of the outer endpoint of a segment, from create_seg_cells. -/
def segZ1 (s : cDseg) : ℝ := (ptsAt s.idx_out).position.z

/-- Height z2 of the inner endpoint of a segment, from create_seg_cells. -/
def segZ2 (s : cDseg) : ℝ := (ptsAt s.idx_in).position.z

/-- Wall radius r1 of create_seg_cells: outer endpoint radius plus
C_OFFSET. -/
def seg_r1 (s : cDseg) : ℝ := (ptsAt s.idx_out).radius + C_OFFSET

/-- Wall radius r2 of create_seg_cells: inner endpoint radius plus
C_OFFSET. -/
def seg_r2 (s : cDseg) : ℝ := (ptsAt s.idx_in).radius + C_OFFSET

/-- Cone radius interpolation ((z - z1)/z12)*r12 + r1 of create_seg_cells,
with r12 = r2 - r1 and z12 = z2 - z1. -/
def seg_radius (s : cDseg) (z : ℝ) : ℝ :=
  ((z - segZ1 s) / (segZ2 s - segZ1 s)) * (seg_r2 s - seg_r1 s) + seg_r1 s

/-- First draw of every attempt: a1 = random.uniform(0, 2*pi). -/
def draw_a1 (u : ℕ → ℝ) (k : ℕ) : ℝ := uniform 0 (2 * Real.pi) (u k)

/-- Acinar polar angle draw: a2 = random.uniform(0, 0.8*pi), the second
draw of an acinar attempt. -/
def acinar_a2 (u : ℕ → ℝ) (k : ℕ) : ℝ := uniform 0 (0.8 * Real.pi) (u (k + 1))

/-- Duct branch height draw: z = random.uniform(z1 + C_RADIUS, z2), the
second draw of a duct attempt. -/
def duct_z (s : cDseg) (u : ℕ → ℝ) (k : ℕ) : ℝ :=
  uniform (segZ1 s + C_RADIUS) (segZ2 s) (u (k + 1))

/-- Duct branch radius: random.uniform(0.95, 1.05) times the interpolated
cone radius at the drawn height; the perturbation is the third draw. -/
def duct_r (s : cDseg) (u : ℕ → ℝ) (k : ℕ) : ℝ :=
  uniform 0.95 1.05 (u (k + 2)) * seg_radius s (duct_z s u k)

/-- Candidate placement point of one attempt of create_seg_cells, reading
the random stream from position k. The acinar branch places the point on a
stretched spherical shell of radius 3.5*C_RADIUS around the inner endpoint;
the duct branch places it on the perturbed interpolated cone radius. -/
def attemptPoint (u : ℕ → ℝ) (s : cDseg) (k : ℕ) : Vec3 :=
  if s.ctype = CellType.acinar then
    ⟨(ptsAt s.idx_in).position.x +
       3.5 * C_RADIUS * Real.sin (acinar_a2 u k) * Real.cos (draw_a1 u k),
     (ptsAt s.idx_in).position.y +
       3.5 * C_RADIUS * Real.sin (acinar_a2 u k) * Real.sin (draw_a1 u k),
     (ptsAt s.idx_in).position.z +
       1.5 * (3.5 * C_RADIUS) * Real.cos (acinar_a2 u k)⟩
  else
    ⟨duct_r s u k * Real.sin (draw_a1 u k),
     duct_r s u k * Real.cos (draw_a1 u k),
     duct_z s u k⟩

/-- Number of random.uniform draws one attempt consumes: a1 and a2 for an
acinar attempt; a1, z and the perturbation for a duct attempt. -/
def drawCount (s : cDseg) : ℕ := if s.ctype = CellType.acinar then 2 else 3

/-- Generation state of the seeding run. The field centers models the
global cell_centers list: each entry is an accepted point paired with the
ctype of the segment that accepted it (ghost data recording which minimum
distance guarded the acceptance; the guard itself reads only the points).
The field trace records every examined candidate with its accept decision
(ghost data; the code keeps no such list). The field k is the position
reached in the random stream. -/
structure GState where
  k : ℕ
  centers : List (Vec3 × CellType)
  trace : List (Vec3 × Bool)

open Classical in
/-- Retry loop of one seed index of create_seg_cells: up to fuel attempts
(the code uses 10000); returns the examined candidates with their accept
decisions, the accepted point if any, and the new stream position. -/
def tryPlace (u : ℕ → ℝ) (s : cDseg) (cs : List Vec3) :
    ℕ → ℕ → List (Vec3 × Bool) × Option Vec3 × ℕ
  | 0, k => ([], none, k)
  | fuel + 1, k =>
    if accept_ok cs (attemptPoint u s k) (minDist s.ctype) then
      ([(attemptPoint u s k, true)], some (attemptPoint u s k), k + drawCount s)
    else
      ((attemptPoint u s k, false) :: (tryPlace u s cs fuel (k + drawCount s)).1,
       (tryPlace u s cs fuel (k + drawCount s)).2)

/-- Body of one iteration of the outer for i in range(50) loop of
create_seg_cells: run the retry loop; on success append the accepted point
to the registry and consume one further draw (the random cell scale); on
exhaustion leave the registry unchanged. -/
def seed_step (u : ℕ → ℝ) (s : cDseg) (st : GState) : GState :=
  Option.elim (tryPlace u s (st.centers.map Prod.fst) 10000 st.k).2.1
    ⟨(tryPlace u s (st.centers.map Prod.fst) 10000 st.k).2.2,
     st.centers,
     st.trace ++ (tryPlace u s (st.centers.map Prod.fst) 10000 st.k).1⟩
    (fun p =>
      ⟨(tryPlace u s (st.centers.map Prod.fst) 10000 st.k).2.2 + 1,
       st.centers ++ [(p, s.ctype)],
       st.trace ++ (tryPlace u s (st.centers.map Prod.fst) 10000 st.k).1⟩)

/-- create_seg_cells: try to create 50 random cell seeds around segment s. -/
def create_seg_cells (u : ℕ → ℝ) (s : cDseg) (st : GState) : GState :=
  (seed_step u s)^[50] st

/-- create_cells: create cells around all duct segments, in DSEG order,
starting from the empty registry and the start of the random stream. -/
def create_cells (u : ℕ → ℝ) : GState :=
  DSEG.foldl (fun st s => create_seg_cells u s st) ⟨0, [], []⟩

/-- Constant random stream used in concrete witness runs. -/
def wStream : ℕ → ℝ := fun _ => 0

/-- Degenerate segment used in the retry exhaustion witness: both endpoints
at table entry 0, so every attempt draws the same candidate point. -/
def wSeg : cDseg := ⟨0, 0, CellType.striated⟩

/-- The point every wStream attempt on wSeg produces: the duct branch gives
a1 = 0, z = 1, radius 0.95 * 5.5 = 5.225, so the point (0, 5.225, 1). -/
def wCenter : Vec3 := ⟨0, 5.225, 1⟩

/-- Start state of the retry exhaustion witness: the registry already holds
wCenter, so every identical candidate is rejected as too close. -/
def wState : GState := ⟨0, [(wCenter, CellType.striated)], []⟩

/-- C10: the acceptance guard (registry empty, or not too_close) is
equivalent to not too_close alone, because too_close is false on the empty
registry, so the explicit bootstrap disjunct is redundant. -/
theorem bootstrap_guard_redundant (centers : List Vec3) (p : Vec3) (d : ℝ) :
    accept_ok centers p d ↔ ¬ too_close centers p d := by
  unfold accept_ok too_close
  constructor
  · rintro (rfl | h)
    · rintro ⟨c, hc, -⟩
      exact (List.not_mem_nil c) hc
    · exact h
  · exact Or.inr

/-- C3 counterexample: the endpoint radii are not strictly decreasing along
every segment of the chain: the middle intercalated segment joins endpoints
2 and 3, which both have radius 1.5. -/
theorem duct_radii_not_strictly_decreasing :
    ¬ ∀ s ∈ DSEG, (ptsAt s.idx_in).radius < (ptsAt s.idx_out).radius := by
  intro h
  have h2 : (ptsAt 3).radius < (ptsAt 2).radius :=
    h ⟨2, 3, CellType.intercalated⟩ (by simp [DSEG])
  exact absurd h2 (lt_irrefl (1.5 : ℝ))

/-- C3 (amended): every idx_out and idx_in of the five DSEG segments is a
valid index into the six entry PTS table, and along each segment the inner
endpoint radius is at most the outer endpoint radius, strictly less except
on the middle intercalated segment (endpoints 2 and 3, both of radius
1.5). -/
theorem duct_tables_consistent (s : cDseg) (hs : s ∈ DSEG) :
    PTS.length = 6 ∧ s.idx_out < PTS.length ∧ s.idx_in < PTS.length ∧
    (ptsAt s.idx_in).radius ≤ (ptsAt s.idx_out).radius ∧
    (¬ s.idx_out = 2 → (ptsAt s.idx_in).radius < (ptsAt s.idx_out).radius) := by
  simp only [DSEG, List.mem_cons, List.not_mem_nil, or_false] at hs
  rcases hs with rfl | rfl | rfl | rfl | rfl
  · exact ⟨rfl, by decide, by decide,
      show (3.7 : ℝ) ≤ 4 by norm_num, fun _ => show (3.7 : ℝ) < 4 by norm_num⟩
  · exact ⟨rfl, by decide, by decide,
      show (1.5 : ℝ) ≤ 3.7 by norm_num, fun _ => show (1.5 : ℝ) < 3.7 by norm_num⟩
  · exact ⟨rfl, by decide, by decide,
      show (1.5 : ℝ) ≤ 1.5 by norm_num, fun h => absurd rfl h⟩
  · exact ⟨rfl, by decide, by decide,
      show (0.7 : ℝ) ≤ 1.5 by norm_num, fun _ => show (0.7 : ℝ) < 1.5 by norm_num⟩
  · exact ⟨rfl, by decide, by decide,
      show (0.05 : ℝ) ≤ 0.7 by norm_num, fun _ => show (0.05 : ℝ) < 0.7 by norm_num⟩

/-- Witness for the amended table consistency theorem at the first duct
segment. -/
theorem duct_tables_consistent_witness :
    (⟨0, 1, CellType.striated⟩ : cDseg) ∈ DSEG ∧
    (PTS.length = 6 ∧
     (⟨0, 1, CellType.striated⟩ : cDseg).idx_out < PTS.length ∧
     (⟨0, 1, CellType.striated⟩ : cDseg).idx_in < PTS.length ∧
     (ptsAt (⟨0, 1, CellType.striated⟩ : cDseg).idx_in).radius ≤
       (ptsAt (⟨0, 1, CellType.striated⟩ : cDseg).idx_out).radius ∧
     (¬ (⟨0, 1, CellType.striated⟩ : cDseg).idx_out = 2 →
       (ptsAt (⟨0, 1, CellType.striated⟩ : cDseg).idx_in).radius <
         (ptsAt (⟨0, 1, CellType.striated⟩ : cDseg).idx_out).radius)) :=
  ⟨by simp [DSEG], duct_tables_consistent ⟨0, 1, CellType.striated⟩ (by simp [DSEG])⟩

/-- Bounds of a uniform draw: for a ≤ b and a draw t in [0, 1], the value
of uniform a b t lies in [a, b]. -/
theorem uniform_bounds {a b t : ℝ} (hab : a ≤ b) (h0 : 0 ≤ t) (h1 : t ≤ 1) :
    a ≤ uniform a b t ∧ uniform a b t ≤ b := by
  unfold uniform
  constructor
  · nlinarith
  · nlinarith

/-- Antitone bounds of the linear interpolation pattern of seg_radius when
the radii do not increase along the segment. -/
theorem interp_antitone (z1 z2 r1 r2 z zp : ℝ) (hz : z1 < z2) (hr : r2 ≤ r1)
    (h1 : z1 ≤ z) (h2 : z ≤ zp) (h3 : zp ≤ z2) :
    ((zp - z1) / (z2 - z1)) * (r2 - r1) + r1 ≤
      ((z - z1) / (z2 - z1)) * (r2 - r1) + r1 ∧
    r2 ≤ ((z - z1) / (z2 - z1)) * (r2 - r1) + r1 ∧
    ((z - z1) / (z2 - z1)) * (r2 - r1) + r1 ≤ r1 := by
  have hw : (0:ℝ) < z2 - z1 := by linarith
  have ht0 : 0 ≤ (z - z1) / (z2 - z1) := div_nonneg (by linarith) hw.le
  have ht1 : (z - z1) / (z2 - z1) ≤ 1 := by
    rw [div_le_one hw]; linarith
  have hmono : (z - z1) / (z2 - z1) ≤ (zp - z1) / (z2 - z1) :=
    (div_le_div_iff_of_pos_right hw).mpr (by linarith)
  refine ⟨?_, ?_, ?_⟩
  · nlinarith [mul_nonneg (by linarith : (0:ℝ) ≤ (zp - z1) / (z2 - z1) - (z - z1) / (z2 - z1))
      (by linarith : (0:ℝ) ≤ r1 - r2)]
  · nlinarith [mul_nonneg (by linarith : (0:ℝ) ≤ 1 - (z - z1) / (z2 - z1))
      (by linarith : (0:ℝ) ≤ r1 - r2)]
  · nlinarith [mul_nonneg ht0 (by linarith : (0:ℝ) ≤ r1 - r2)]

/-- C6: for every non acinar segment of DSEG, the unperturbed cone radius
interpolation used for candidate placement is monotone in z between the
two wall radii: on segZ1 s ≤ z ≤ zp ≤ segZ2 s the value at zp is at most
the value at z (the radii taper inward along every duct segment), and
every value lies between seg_r2 and seg_r1. -/
theorem seg_radius_monotone (s : cDseg) (hs : s ∈ DSEG)
    (hna : ¬ s.ctype = CellType.acinar) (z zp : ℝ)
    (h1 : segZ1 s ≤ z) (h2 : z ≤ zp) (h3 : zp ≤ segZ2 s) :
    seg_radius s zp ≤ seg_radius s z ∧
    seg_r2 s ≤ seg_radius s z ∧ seg_radius s z ≤ seg_r1 s := by
  have key : segZ1 s < segZ2 s ∧ seg_r2 s ≤ seg_r1 s := by
    simp only [DSEG, List.mem_cons, List.not_mem_nil, or_false] at hs
    rcases hs with rfl | rfl | rfl | rfl | rfl
    · constructor <;>
        norm_num [segZ1, segZ2, seg_r1, seg_r2, ptsAt, PTS, C_OFFSET, C_RADIUS]
    · constructor <;>
        norm_num [segZ1, segZ2, seg_r1, seg_r2, ptsAt, PTS, C_OFFSET, C_RADIUS]
    · constructor <;>
        norm_num [segZ1, segZ2, seg_r1, seg_r2, ptsAt, PTS, C_OFFSET, C_RADIUS]
    · constructor <;>
        norm_num [segZ1, segZ2, seg_r1, seg_r2, ptsAt, PTS, C_OFFSET, C_RADIUS]
    · exact absurd rfl hna
  exact interp_antitone (segZ1 s) (segZ2 s) (seg_r1 s) (seg_r2 s) z zp
    key.1 key.2 h1 h2 h3

/-- Witness for the interpolation monotonicity theorem on the first duct
segment with z = 0 and zp = 5. -/
theorem seg_radius_monotone_witness :
    ((⟨0, 1, CellType.striated⟩ : cDseg) ∈ DSEG ∧
     ¬ (⟨0, 1, CellType.striated⟩ : cDseg).ctype = CellType.acinar ∧
     segZ1 ⟨0, 1, CellType.striated⟩ ≤ 0 ∧ (0:ℝ) ≤ 5 ∧
     (5:ℝ) ≤ segZ2 ⟨0, 1, CellType.striated⟩) ∧
    (seg_radius ⟨0, 1, CellType.striated⟩ 5 ≤
       seg_radius ⟨0, 1, CellType.striated⟩ 0 ∧
     seg_r2 ⟨0, 1, CellType.striated⟩ ≤ seg_radius ⟨0, 1, CellType.striated⟩ 0 ∧
     seg_radius ⟨0, 1, CellType.striated⟩ 0 ≤ seg_r1 ⟨0, 1, CellType.striated⟩) :=
  ⟨⟨by simp [DSEG], by simp, by norm_num [segZ1, ptsAt, PTS], by norm_num,
    by norm_num [segZ2, ptsAt, PTS]⟩,
   seg_radius_monotone ⟨0, 1, CellType.striated⟩ (by simp [DSEG]) (by simp)
     0 5 (by norm_num [segZ1, ptsAt, PTS]) (by norm_num)
     (by norm_num [segZ2, ptsAt, PTS])⟩

/-- C4 counterexample: on the first duct segment, with the next draw equal
to 0, the candidate height is segZ1 + C_RADIUS = 1, while a draw of 0 from
a uniform distribution over the entire axial extent [z1, z2] would give
z1 = 0: the height is not sampled over the entire extent. -/
theorem duct_z_not_full_extent :
    (⟨0, 1, CellType.striated⟩ : cDseg) ∈ DSEG ∧
    (attemptPoint wStream ⟨0, 1, CellType.striated⟩ 0).z =
      segZ1 ⟨0, 1, CellType.striated⟩ + C_RADIUS ∧
    ¬ (attemptPoint wStream ⟨0, 1, CellType.striated⟩ 0).z =
      uniform (segZ1 ⟨0, 1, CellType.striated⟩)
        (segZ2 ⟨0, 1, CellType.striated⟩) (wStream 1) := by
  have e : (attemptPoint wStream ⟨0, 1, CellType.striated⟩ 0).z =
      duct_z ⟨0, 1, CellType.striated⟩ wStream 0 := rfl
  refine ⟨by simp [DSEG], ?_, ?_⟩
  · rw [e]
    norm_num [duct_z, uniform, wStream]
  · rw [e]
    norm_num [duct_z, uniform, wStream, segZ1, segZ2, ptsAt, PTS, C_RADIUS]

/-- C4 (amended): for every non acinar segment of DSEG and admissible
stream, the duct branch candidate is built from a height drawn uniformly
over [segZ1 + C_RADIUS, segZ2] (not over the entire axial extent), a
radial distance equal to the interpolated cone radius (offset radii)
scaled by a uniform perturbation in [0.95, 1.05], and a uniform azimuth in
[0, 2*pi]. -/
theorem duct_candidate_distribution (s : cDseg) (hs : s ∈ DSEG)
    (hna : ¬ s.ctype = CellType.acinar) (u : ℕ → ℝ) (k : ℕ)
    (hu : ∀ n, 0 ≤ u n ∧ u n ≤ 1) :
    attemptPoint u s k =
      ⟨duct_r s u k * Real.sin (draw_a1 u k),
       duct_r s u k * Real.cos (draw_a1 u k), duct_z s u k⟩ ∧
    duct_z s u k = uniform (segZ1 s + C_RADIUS) (segZ2 s) (u (k + 1)) ∧
    segZ1 s + C_RADIUS ≤ duct_z s u k ∧ duct_z s u k ≤ segZ2 s ∧
    draw_a1 u k = uniform 0 (2 * Real.pi) (u k) ∧
    0 ≤ draw_a1 u k ∧ draw_a1 u k ≤ 2 * Real.pi ∧
    duct_r s u k = uniform 0.95 1.05 (u (k + 2)) * seg_radius s (duct_z s u k) ∧
    0.95 ≤ uniform 0.95 1.05 (u (k + 2)) ∧ uniform 0.95 1.05 (u (k + 2)) ≤ 1.05 := by
  have hpoint : attemptPoint u s k =
      ⟨duct_r s u k * Real.sin (draw_a1 u k),
       duct_r s u k * Real.cos (draw_a1 u k), duct_z s u k⟩ := by
    simp [attemptPoint, hna]
  have hzb : segZ1 s + C_RADIUS ≤ segZ2 s := by
    simp only [DSEG, List.mem_cons, List.not_mem_nil, or_false] at hs
    rcases hs with rfl | rfl | rfl | rfl | rfl
    · norm_num [segZ1, segZ2, ptsAt, PTS, C_RADIUS]
    · norm_num [segZ1, segZ2, ptsAt, PTS, C_RADIUS]
    · norm_num [segZ1, segZ2, ptsAt, PTS, C_RADIUS]
    · norm_num [segZ1, segZ2, ptsAt, PTS, C_RADIUS]
    · exact absurd rfl hna
  have hz := uniform_bounds hzb (hu (k + 1)).1 (hu (k + 1)).2
  have ha := uniform_bounds (show (0:ℝ) ≤ 2 * Real.pi by positivity)
    (hu k).1 (hu k).2
  have hp := uniform_bounds (show (0.95:ℝ) ≤ 1.05 by norm_num)
    (hu (k + 2)).1 (hu (k + 2)).2
  exact ⟨hpoint, rfl, hz.1, hz.2, rfl, ha.1, ha.2, rfl, hp.1, hp.2⟩

/-- Witness for the amended duct candidate distribution theorem at the
first duct segment, the zero stream and stream position 0. -/
theorem duct_candidate_distribution_witness :
    ((⟨0, 1, CellType.striated⟩ : cDseg) ∈ DSEG ∧
     ¬ (⟨0, 1, CellType.striated⟩ : cDseg).ctype = CellType.acinar ∧
     (∀ n, 0 ≤ wStream n ∧ wStream n ≤ 1)) ∧
    (attemptPoint wStream ⟨0, 1, CellType.striated⟩ 0 =
      ⟨duct_r ⟨0, 1, CellType.striated⟩ wStream 0 *
         Real.sin (draw_a1 wStream 0),
       duct_r ⟨0, 1, CellType.striated⟩ wStream 0 *
         Real.cos (draw_a1 wStream 0),
       duct_z ⟨0, 1, CellType.striated⟩ wStream 0⟩ ∧
     duct_z ⟨0, 1, CellType.striated⟩ wStream 0 =
       uniform (segZ1 ⟨0, 1, CellType.striated⟩ + C_RADIUS)
         (segZ2 ⟨0, 1, CellType.striated⟩) (wStream 1) ∧
     segZ1 ⟨0, 1, CellType.striated⟩ + C_RADIUS ≤
       duct_z ⟨0, 1, CellType.striated⟩ wStream 0 ∧
     duct_z ⟨0, 1, CellType.striated⟩ wStream 0 ≤
       segZ2 ⟨0, 1, CellType.striated⟩ ∧
     draw_a1 wStream 0 = uniform 0 (2 * Real.pi) (wStream 0) ∧
     0 ≤ draw_a1 wStream 0 ∧ draw_a1 wStream 0 ≤ 2 * Real.pi ∧
     duct_r ⟨0, 1, CellType.striated⟩ wStream 0 =
       uniform 0.95 1.05 (wStream 2) *
         seg_radius ⟨0, 1, CellType.striated⟩
           (duct_z ⟨0, 1, CellType.striated⟩ wStream 0) ∧
     0.95 ≤ uniform 0.95 1.05 (wStream 2) ∧
     uniform 0.95 1.05 (wStream 2) ≤ 1.05) :=
  ⟨⟨by simp [DSEG], by simp, fun n => by norm_num [wStream]⟩,
   duct_candidate_distribution ⟨0, 1, CellType.striated⟩ (by simp [DSEG])
     (by simp) wStream 0 (fun n => by norm_num [wStream])⟩

/-- C5: for every admissible stream and stream position, the acinar polar
angle draw a2 lies within [0, 0.8*pi]; moreover it is the angle the acinar
candidate point is built from (its height above the inner endpoint is
1.5 * r * cos a2 with r = 3.5 * C_RADIUS). -/
theorem acinar_polar_angle_range (u : ℕ → ℝ) (k : ℕ)
    (hu : ∀ n, 0 ≤ u n ∧ u n ≤ 1) :
    0 ≤ acinar_a2 u k ∧ acinar_a2 u k ≤ 0.8 * Real.pi ∧
    ∀ s : cDseg, s.ctype = CellType.acinar →
      (attemptPoint u s k).z =
        (ptsAt s.idx_in).position.z +
          1.5 * (3.5 * C_RADIUS) * Real.cos (acinar_a2 u k) := by
  have h := uniform_bounds (show (0:ℝ) ≤ 0.8 * Real.pi by positivity)
    (hu (k + 1)).1 (hu (k + 1)).2
  exact ⟨h.1, h.2, fun s hsa => by simp [attemptPoint, hsa]⟩

/-- Witness for the acinar polar angle theorem at the zero stream and
stream position 0. -/
theorem acinar_polar_angle_range_witness :
    (∀ n, 0 ≤ wStream n ∧ wStream n ≤ 1) ∧
    (0 ≤ acinar_a2 wStream 0 ∧ acinar_a2 wStream 0 ≤ 0.8 * Real.pi ∧
     ∀ s : cDseg, s.ctype = CellType.acinar →
       (attemptPoint wStream s 0).z =
         (ptsAt s.idx_in).position.z +
           1.5 * (3.5 * C_RADIUS) * Real.cos (acinar_a2 wStream 0)) :=
  ⟨fun n => by norm_num [wStream],
   acinar_polar_angle_range wStream 0 (fun n => by norm_num [wStream])⟩

/-- C8: the inner radius r2 that create_duct uses for the joint sphere and
the connecting cone is the inner endpoint table radius plus the wall
offset, except that a nonzero offset on the acinar segment substitutes
A_RADIUS = 8 and additionally scales the joint sphere by (1, 1, 1.5); at
offset 0 the table radius is always used and the sphere is unscaled. -/
theorem duct_r2_selection (offset : ℝ) (s : cDseg) (_hs : s ∈ DSEG) :
    (¬ offset = 0 ∧ s.ctype = CellType.acinar →
      duct_r2 offset s = A_RADIUS ∧ A_RADIUS = 8 ∧
      joint_scale offset s = ⟨1, 1, 1.5⟩) ∧
    (offset = 0 ∨ ¬ s.ctype = CellType.acinar →
      duct_r2 offset s = (ptsAt s.idx_in).radius + offset ∧
      joint_scale offset s = ⟨1, 1, 1⟩) ∧
    duct_r2 0 s = (ptsAt s.idx_in).radius := by
  refine ⟨fun h => ?_, fun h => ?_, ?_⟩
  · unfold duct_r2 joint_scale
    rw [if_pos h, if_pos h]
    exact ⟨rfl, rfl, rfl⟩
  · have hneg : ¬ (¬ offset = 0 ∧ s.ctype = CellType.acinar) := by
      rcases h with h0 | hna
      · exact fun hc => hc.1 h0
      · exact fun hc => hna hc.2
    unfold duct_r2 joint_scale
    rw [if_neg hneg, if_neg hneg]
    exact ⟨rfl, rfl⟩
  · have hneg : ¬ (¬ (0:ℝ) = 0 ∧ s.ctype = CellType.acinar) :=
      fun hc => hc.1 rfl
    unfold duct_r2
    rw [if_neg hneg, add_zero]

/-- Witness for the duct wall radius selection theorem at the acinar
segment with the outer wall offset 2 * C_OFFSET. -/
theorem duct_r2_selection_witness :
    (⟨4, 5, CellType.acinar⟩ : cDseg) ∈ DSEG ∧
    ((¬ 2 * C_OFFSET = 0 ∧ (⟨4, 5, CellType.acinar⟩ : cDseg).ctype = CellType.acinar →
       duct_r2 (2 * C_OFFSET) ⟨4, 5, CellType.acinar⟩ = A_RADIUS ∧ A_RADIUS = 8 ∧
       joint_scale (2 * C_OFFSET) ⟨4, 5, CellType.acinar⟩ = ⟨1, 1, 1.5⟩) ∧
     (2 * C_OFFSET = 0 ∨ ¬ (⟨4, 5, CellType.acinar⟩ : cDseg).ctype = CellType.acinar →
       duct_r2 (2 * C_OFFSET) ⟨4, 5, CellType.acinar⟩ =
         (ptsAt (⟨4, 5, CellType.acinar⟩ : cDseg).idx_in).radius + 2 * C_OFFSET ∧
       joint_scale (2 * C_OFFSET) ⟨4, 5, CellType.acinar⟩ = ⟨1, 1, 1⟩) ∧
     duct_r2 0 ⟨4, 5, CellType.acinar⟩ =
       (ptsAt (⟨4, 5, CellType.acinar⟩ : cDseg).idx_in).radius) :=
  ⟨by simp [DSEG],
   duct_r2_selection (2 * C_OFFSET) ⟨4, 5, CellType.acinar⟩ (by simp [DSEG])⟩

/-- Soundness of the retry loop: an accepted point passed the acceptance
guard against the registry the loop was started with. -/
theorem tryPlace_some_accept (u : ℕ → ℝ) (s : cDseg) (cs : List Vec3) :
    ∀ fuel k p, (tryPlace u s cs fuel k).2.1 = some p →
      accept_ok cs p (minDist s.ctype) := by
  intro fuel
  induction fuel with
  | zero =>
    intro k p h
    simp [tryPlace] at h
  | succ n ih =>
    intro k p h
    by_cases hacc : accept_ok cs (attemptPoint u s k) (minDist s.ctype)
    · simp only [tryPlace] at h
      rw [if_pos hacc] at h
      have h2 : attemptPoint u s k = p := Option.some.inj h
      exact h2 ▸ hacc
    · simp only [tryPlace] at h
      rw [if_neg hacc] at h
      exact ih _ _ h

/-- When every candidate of the stream is rejected, the retry loop returns
none for any fuel. -/
theorem tryPlace_none_reject (u : ℕ → ℝ) (s : cDseg) (cs : List Vec3)
    (hrej : ∀ k, ¬ accept_ok cs (attemptPoint u s k) (minDist s.ctype)) :
    ∀ fuel k, (tryPlace u s cs fuel k).2.1 = none := by
  intro fuel
  induction fuel with
  | zero => intro k; rfl
  | succ n ih =>
    intro k
    simp only [tryPlace]
    rw [if_neg (hrej k)]
    exact ih (k + drawCount s)

/-- One seed iteration either leaves the registry unchanged (retries
exhausted) or appends exactly the accepted point, tagged with the segment
type. -/
theorem seed_step_centers (u : ℕ → ℝ) (s : cDseg) (st : GState) :
    (seed_step u s st).centers = st.centers ∨
    ∃ p, (tryPlace u s (st.centers.map Prod.fst) 10000 st.k).2.1 = some p ∧
      (seed_step u s st).centers = st.centers ++ [(p, s.ctype)] := by
  rcases h : (tryPlace u s (st.centers.map Prod.fst) 10000 st.k).2.1 with _ | p
  · left
    unfold seed_step
    rw [h]
    rfl
  · right
    refine ⟨p, rfl, ?_⟩
    unfold seed_step
    rw [h]
    rfl

/-- Appending a point that passed the acceptance guard preserves the
pairwise separation invariant. -/
theorem sep_append (l : List (Vec3 × CellType)) (p : Vec3) (t : CellType)
    (hacc : accept_ok (l.map Prod.fst) p (minDist t))
    (hsep : List.Pairwise (fun a b => minDist b.2 ≤ ((b.1).sub a.1).length) l) :
    List.Pairwise (fun a b => minDist b.2 ≤ ((b.1).sub a.1).length)
      (l ++ [(p, t)]) := by
  rw [List.pairwise_append]
  refine ⟨hsep, by simp, ?_⟩
  intro a ha b hb
  simp only [List.mem_singleton] at hb
  subst hb
  rcases hacc with hnil | hfar
  · rw [List.map_eq_nil_iff] at hnil
    subst hnil
    simp at ha
  · by_contra hlt
    push_neg at hlt
    exact hfar ⟨a.1, List.mem_map_of_mem Prod.fst ha, hlt⟩

/-- One seed iteration preserves the pairwise separation invariant. -/
theorem sep_seed_step (u : ℕ → ℝ) (s : cDseg) (st : GState)
    (hsep : List.Pairwise (fun a b => minDist b.2 ≤ ((b.1).sub a.1).length)
      st.centers) :
    List.Pairwise (fun a b => minDist b.2 ≤ ((b.1).sub a.1).length)
      (seed_step u s st).centers := by
  rcases seed_step_centers u s st with hc | ⟨p, hsome, hc⟩
  · rwa [hc]
  · rw [hc]
    exact sep_append st.centers p s.ctype
      (tryPlace_some_accept u s (st.centers.map Prod.fst) 10000 st.k p hsome)
      hsep

/-- All 50 seed iterations of one segment preserve the pairwise separation
invariant. -/
theorem sep_iterate (u : ℕ → ℝ) (s : cDseg) :
    ∀ n (st : GState),
      List.Pairwise (fun a b => minDist b.2 ≤ ((b.1).sub a.1).length)
        st.centers →
      List.Pairwise (fun a b => minDist b.2 ≤ ((b.1).sub a.1).length)
        ((seed_step u s)^[n] st).centers := by
  intro n
  induction n with
  | zero => intro st h; exact h
  | succ m ih =>
    intro st h
    rw [Function.iterate_succ_apply']
    exact sep_seed_step u s _ (ih st h)

/-- C1: after a run of create_cells on any draw stream, the accepted
centers are pairwise separated: every later accepted center lies at
distance at least the type specific minimum of its own segment from every
earlier one, the minimum being 2.8 * C_RADIUS for a center accepted for
the acinar segment and 2.5 * C_RADIUS for intercalated and striated
segments. -/
theorem pairwise_min_separation (u : ℕ → ℝ) :
    List.Pairwise (fun a b => minDist b.2 ≤ ((b.1).sub a.1).length)
      (create_cells u).centers ∧
    minDist CellType.acinar = 2.8 * C_RADIUS ∧
    minDist CellType.intercalated = 2.5 * C_RADIUS ∧
    minDist CellType.striated = 2.5 * C_RADIUS := by
  refine ⟨?_, rfl, rfl, rfl⟩
  unfold create_cells
  have key : ∀ (L : List cDseg) (st : GState),
      List.Pairwise (fun a b => minDist b.2 ≤ ((b.1).sub a.1).length)
        st.centers →
      List.Pairwise (fun a b => minDist b.2 ≤ ((b.1).sub a.1).length)
        (L.foldl (fun st s => create_seg_cells u s st) st).centers := by
    intro L
    induction L with
    | nil => intro st h; exact h
    | cons s L ih =>
      intro st h
      exact ih _ (sep_iterate u s 50 st h)
  exact key DSEG ⟨0, [], []⟩ List.Pairwise.nil

/-- C2: if the 10000 attempt retry loop of a seed index exhausts without
an acceptable candidate, that seed is skipped silently: the registry is
unchanged by that iteration, and in every case a create_seg_cells call
appends at most 50 centers. -/
theorem exhausted_seed_skipped (u : ℕ → ℝ) (s : cDseg) (st : GState)
    (h : (tryPlace u s (st.centers.map Prod.fst) 10000 st.k).2.1 = none) :
    (seed_step u s st).centers = st.centers ∧
    (create_seg_cells u s st).centers.length ≤ st.centers.length + 50 := by
  constructor
  · unfold seed_step
    rw [h]
    rfl
  · have hlen : ∀ n (stp : GState),
        ((seed_step u s)^[n] stp).centers.length ≤ stp.centers.length + n := by
      intro n
      induction n with
      | zero => intro stp; simp
      | succ m ih =>
        intro stp
        rw [Function.iterate_succ_apply']
        rcases seed_step_centers u s ((seed_step u s)^[m] stp) with hc | ⟨p, _, hc⟩
        · rw [hc]
          have := ih stp
          omega
        · rw [hc, List.length_append]
          have := ih stp
          simp only [List.length_cons, List.length_nil]
          omega
    exact hlen 50 st

/-- Every candidate drawn from the zero stream on the degenerate witness
segment is the point wCenter, which the wState registry rejects as too
close; hence the retry loop always exhausts there. -/
theorem wReject (k : ℕ) :
    ¬ accept_ok (wState.centers.map Prod.fst) (attemptPoint wStream wSeg k)
      (minDist wSeg.ctype) := by
  have hpt : attemptPoint wStream wSeg k = wCenter := by
    have hbr : attemptPoint wStream wSeg k =
        ⟨duct_r wSeg wStream k * Real.sin (draw_a1 wStream k),
         duct_r wSeg wStream k * Real.cos (draw_a1 wStream k),
         duct_z wSeg wStream k⟩ := by
      simp [attemptPoint, wSeg]
    have ha1 : draw_a1 wStream k = 0 := by
      simp [draw_a1, uniform, wStream]
    have hz : duct_z wSeg wStream k = 1 := by
      norm_num [duct_z, uniform, wStream, wSeg, segZ1, segZ2, ptsAt, PTS,
        C_RADIUS]
    have hr : duct_r wSeg wStream k = 5.225 := by
      rw [duct_r, hz]
      norm_num [seg_radius, uniform, wStream, wSeg, segZ1, segZ2, seg_r1,
        seg_r2, ptsAt, PTS, C_OFFSET, C_RADIUS]
    rw [hbr, ha1, hz, hr]
    simp [wCenter]
  rw [hpt]
  rintro (hnil | hfar)
  · simp [wState] at hnil
  · apply hfar
    refine ⟨wCenter, by simp [wState], ?_⟩
    have hzero : (wCenter.sub wCenter).length = 0 := by
      simp [Vec3.sub, Vec3.length]
    have hmd : minDist wSeg.ctype = 2.5 * C_RADIUS := rfl
    rw [hzero, hmd]
    norm_num [C_RADIUS]

/-- Witness for the exhaustion theorem: on the degenerate segment with the
zero stream and a registry already holding the unique candidate point, all
10000 retries fail, the registry is unchanged and the length bound holds. -/
theorem exhausted_seed_skipped_witness :
    (tryPlace wStream wSeg (wState.centers.map Prod.fst) 10000 wState.k).2.1 =
      none ∧
    ((seed_step wStream wSeg wState).centers = wState.centers ∧
     (create_seg_cells wStream wSeg wState).centers.length ≤
       wState.centers.length + 50) := by
  have hnone :=
    tryPlace_none_reject wStream wSeg (wState.centers.map Prod.fst) wReject
      10000 wState.k
  exact ⟨hnone, exhausted_seed_skipped wStream wSeg wState hnone⟩

/-- C9: the cell center registry is append only: after any number of seed
iterations of create_seg_cells the previous registry is an unchanged
initial segment of the new one, and in particular a whole create_seg_cells
call only appends. -/
theorem create_seg_cells_append_only (u : ℕ → ℝ) (s : cDseg) (st : GState) :
    (∀ n, ∃ l, ((seed_step u s)^[n] st).centers = st.centers ++ l) ∧
    ∃ l, (create_seg_cells u s st).centers = st.centers ++ l := by
  have key : ∀ n, ∃ l, ((seed_step u s)^[n] st).centers = st.centers ++ l := by
    intro n
    induction n with
    | zero => exact ⟨[], by simp⟩
    | succ m ih =>
      obtain ⟨l, hl⟩ := ih
      rw [Function.iterate_succ_apply']
      rcases seed_step_centers u s ((seed_step u s)^[m] st) with hc | ⟨p, _, hc⟩
      · exact ⟨l, by rw [hc, hl]⟩
      · exact ⟨l ++ [(p, s.ctype)], by rw [hc, hl, List.append_assoc]⟩
  exact ⟨key, key 50⟩

/-- C7: two runs of create_cells over extensionally equal draw streams
examine the same candidate points, take the same accept decisions and
accept the same list of cell centers. -/
theorem run_deterministic (u v : ℕ → ℝ) (h : ∀ n, u n = v n) :
    (create_cells u).trace.map Prod.fst = (create_cells v).trace.map Prod.fst ∧
    (create_cells u).trace.map Prod.snd = (create_cells v).trace.map Prod.snd ∧
    (create_cells u).centers.map Prod.fst =
      (create_cells v).centers.map Prod.fst := by
  have huv : u = v := funext h
  subst huv
  exact ⟨rfl, rfl, rfl⟩

/-- Witness for the determinism theorem at the zero stream. -/
theorem run_deterministic_witness :
    (∀ n, wStream n = wStream n) ∧
    ((create_cells wStream).trace.map Prod.fst =
       (create_cells wStream).trace.map Prod.fst ∧
     (create_cells wStream).trace.map Prod.snd =
       (create_cells wStream).trace.map Prod.snd ∧
     (create_cells wStream).centers.map Prod.fst =
       (create_cells wStream).centers.map Prod.fst) :=
  ⟨fun _ => rfl, run_deterministic wStream wStream (fun _ => rfl)⟩

end

end MiniGland
